import Mathlib

/-!
Shallow embedding of the PsychoAnalyze server core (Express routes, the
OpenAI analysis requestor, the drizzle-zod insert schema and the in-memory
`MemStorage`), together with theorems checking the specification's claims
against it.

Sources embedded:
* `src/server/services/openai.ts` — `analyzeConversation` (prompt construction
  aside, which produces no observable data): provider call outcome, the empty
  content check, `JSON.parse`, and the four `Math.max(0, Math.min(10, x || 0))`
  score sanitizations.
* `src/server/routes.ts` — the POST `/api/conversations`,
  POST `/api/conversations/:id/analyze` and GET `/api/conversations/:id/analysis`
  handlers.
* shared schema — `insertConversationSchema` (drizzle-zod `createInsertSchema`
  over the `conversations` table, minus `id`/`createdAt`).
* `MemStorage` — JavaScript `Map`-backed store with `createConversation`,
  `getConversation(s)`, `createAnalysis`, `getAnalysis`, `getAnalyses`.

Modelling conventions:
* JavaScript runtime values coming out of `JSON.parse` are the inductive
  `JSVal`.  `JSVal.nan` represents the IEEE NaN produced by failed numeric
  coercions; `JSON.parse` itself never produces it.  JSON numbers are embedded
  as rationals: the clamping logic only compares and selects (never rounds),
  so the rational embedding agrees with IEEE doubles on every value a JSON
  literal denotes.
* `undefined` is represented by `Option.none` at access sites (an absent
  object property, an absent optional field).
* Timestamps (`Date` / `createdAt`) are naturals (epoch milliseconds).
* The remote OpenAI call is an oracle: the route receives a function from the
  built request and a call index to a `ChatOutcome`; the code consults call
  index 0 once (the source performs a single un-retried call).
-/

/-- A JavaScript value as produced by `JSON.parse` plus `nan` (the IEEE NaN
that failed numeric coercions produce; never produced by `JSON.parse`). -/
inductive JSVal where
  | null
  | nan
  | bool (b : Bool)
  | num (q : ℚ)
  | str (s : String)
  | arr (elems : List JSVal)
  | obj (fields : List (String × JSVal))

/-- Property read on a JavaScript object: the value at the first matching key
(post-`JSON.parse` objects hold each key once; see `parseMembers`, which keeps
the last duplicate's value at the first occurrence's position, as JS does).
`none` is JavaScript `undefined`. -/
def objGet (fields : List (String × JSVal)) (k : String) : Option JSVal :=
  (fields.find? (fun p => p.1 == k)).map (fun p => p.2)

/-- Property write on a JavaScript object: replaces the value at an existing
key in place, otherwise appends the new key (JS property-order semantics). -/
def objSet : List (String × JSVal) → String → JSVal → List (String × JSVal)
  | [], k, v => [(k, v)]
  | (k', v') :: rest, k, v =>
      if k' = k then (k, v) :: rest else (k', v') :: objSet rest k v

/-- JavaScript truthiness of a value (`NaN`, `0`, `""`, `null`, `false` and
`undefined` are falsy; `undefined` is handled at the `Option` layer). -/
def truthy : JSVal → Bool
  | .null => false
  | .nan => false
  | .bool b => b
  | .num q => q != 0
  | .str s => s != ""
  | .arr _ => true
  | .obj _ => true

/-- JavaScript `ToNumber` on a string (used by `Math.min`/`Math.max` argument
coercion): optional surrounding whitespace, optional sign, decimal digits with
optional fraction and exponent.  `""` and whitespace-only coerce to 0.
`none` is NaN.  (Hex literals and the `Infinity` spellings, which never occur
in this development's inputs, are not modelled and coerce to NaN here.) -/
def strToNumber (s : String) : Option ℚ :=
  let ws : Char → Bool := fun c => c = ' ' || c = '\t' || c = '\n' || c = '\r'
  let cs := (s.data.dropWhile ws).reverse.dropWhile ws |>.reverse
  if cs = [] then some 0 else
  let (sign, cs1) : ℚ × List Char :=
    match cs with
    | '-' :: r => (-1, r)
    | '+' :: r => (1, r)
    | _ => (1, cs)
  let (ip, cs2) := (cs1.takeWhile Char.isDigit, cs1.dropWhile Char.isDigit)
  let (fp, cs3) : List Char × List Char :=
    match cs2 with
    | '.' :: r => (r.takeWhile Char.isDigit, r.dropWhile Char.isDigit)
    | _ => ([], cs2)
  if ip = [] ∧ fp = [] then none else
  let (expOk, e, cs4) : Bool × ℤ × List Char :=
    match cs3 with
    | 'e' :: r | 'E' :: r =>
      let (esign, r1) : ℤ × List Char :=
        match r with
        | '-' :: r' => (-1, r')
        | '+' :: r' => (1, r')
        | _ => (1, r)
      let (ed, r2) := (r1.takeWhile Char.isDigit, r1.dropWhile Char.isDigit)
      if ed = [] then (false, 0, r2)
      else (true, esign * (ed.foldl (fun a c => a * 10 + (c.toNat - '0'.toNat)) 0 : ℕ), r2)
    | _ => (true, 0, cs3)
  if ¬ expOk ∨ cs4 ≠ [] then none else
  let ipv : ℕ := ip.foldl (fun a c => a * 10 + (c.toNat - '0'.toNat)) 0
  let fpv : ℕ := fp.foldl (fun a c => a * 10 + (c.toNat - '0'.toNat)) 0
  some (sign * ((ipv : ℚ) + (fpv : ℚ) / (10 : ℚ) ^ fp.length) * (10 : ℚ) ^ e)

/-- JavaScript `ToNumber` coercion, as applied by `Math.min`/`Math.max` to
their arguments.  `none` is NaN.  (Array coercion goes through the joined
string; only the empty array, which coerces to 0, is modelled exactly — a
non-empty array is sent to NaN here, which is faithful except for
single-element arrays holding a numeric-shaped value; no such value reaches
this function in the theorems below.) -/
def toNumber : JSVal → Option ℚ
  | .null => some 0
  | .nan => none
  | .bool b => some (if b then 1 else 0)
  | .num q => some q
  | .str s => strToNumber s
  | .arr [] => some 0
  | .arr (_ :: _) => none
  | .obj _ => none

/-- One score sanitization from `analyzeConversation`
(`src/server/services/openai.ts`):
`Math.max(0, Math.min(10, raw || 0))` where `raw` is the property value
(`none` = the property is absent, i.e. `undefined`).  `Math.min`/`Math.max`
coerce their argument with `ToNumber` and propagate NaN. -/
def sanitizeScore (raw : Option JSVal) : JSVal :=
  let v : JSVal :=
    match raw with
    | some x => if truthy x then x else .num 0
    | none => .num 0
  match toNumber v with
  | none => .nan
  | some q => .num (max 0 (min 10 q))

/-- The four numeric score fields sanitized by `analyzeConversation`. -/
def scoreKeys : List String :=
  ["emotionalIntensity", "resolutionPotential", "communicationQuality", "powerBalance"]

/-- The four in-place score assignments of `analyzeConversation`, in source
order, each reading the current object and writing the sanitized value back. -/
def sanitizeFields (fs : List (String × JSVal)) : List (String × JSVal) :=
  let f1 := objSet fs "emotionalIntensity"
    (sanitizeScore (objGet fs "emotionalIntensity"))
  let f2 := objSet f1 "resolutionPotential"
    (sanitizeScore (objGet f1 "resolutionPotential"))
  let f3 := objSet f2 "communicationQuality"
    (sanitizeScore (objGet f2 "communicationQuality"))
  objSet f3 "powerBalance" (sanitizeScore (objGet f3 "powerBalance"))

/-- Lower-case hex digit for a value below 16 (as emitted by
`JSON.stringify`'s `\u00XX` escapes for control characters). -/
def hexDigitChar (n : Nat) : Char :=
  if n < 10 then Char.ofNat ('0'.toNat + n) else Char.ofNat ('a'.toNat + n - 10)

/-- `JSON.stringify`'s per-character string escaping: `"` and `\` are
backslash-escaped, the named control escapes are used where they exist, other
control characters become `\u00XX`, and every other character is emitted
verbatim. -/
def escapeChar (c : Char) : List Char :=
  if c = '"' then ['\\', '"']
  else if c = '\\' then ['\\', '\\']
  else if c = '\x08' then ['\\', 'b']
  else if c = '\x09' then ['\\', 't']
  else if c = '\x0a' then ['\\', 'n']
  else if c = '\x0c' then ['\\', 'f']
  else if c = '\x0d' then ['\\', 'r']
  else
    let n := c.toNat
    if n < 0x20 then '\\' :: 'u' :: '0' :: '0' :: hexDigitChar (n / 16) :: [hexDigitChar (n % 16)]
    else [c]

/-- Decimal text for a rational, standing in for JavaScript's number-to-string
conversion (exact for the integers and finite decimal fractions that occur in
this development; no theorem below inspects its output). -/
def qToText (q : ℚ) : String :=
  let sign := if q < 0 then "-" else ""
  let n := q.num.natAbs
  let d := q.den
  let ipart := toString (n / d)
  let rec fracDigits : Nat → Nat → List Char
    | 0, _ => []
    | _, 0 => []
    | fuel + 1, r =>
      let r10 := r * 10
      Char.ofNat ('0'.toNat + r10 / d) :: fracDigits fuel (r10 % d)
  let fr := fracDigits 32 (n % d)
  if fr = [] then sign ++ ipart else sign ++ ipart ++ "." ++ String.mk fr

mutual

/-- `JSON.stringify` of a JavaScript value, as a character list (`nan`
serializes as `null`, like every non-finite number). -/
def stringifyChars : JSVal → List Char
  | .null => "null".data
  | .nan => "null".data
  | .bool true => "true".data
  | .bool false => "false".data
  | .num q => (qToText q).data
  | .str s => '"' :: s.data.flatMap escapeChar ++ ['"']
  | .arr xs => '[' :: stringifyElems xs ++ [']']
  | .obj fs => '{' :: stringifyFields fs ++ ['}']

/-- Comma-separated serialization of array elements. -/
def stringifyElems : List JSVal → List Char
  | [] => []
  | [x] => stringifyChars x
  | x :: y :: rest => stringifyChars x ++ ',' :: stringifyElems (y :: rest)

/-- Comma-separated serialization of object members. -/
def stringifyFields : List (String × JSVal) → List Char
  | [] => []
  | [(k, v)] => '"' :: k.data.flatMap escapeChar ++ '"' :: ':' :: stringifyChars v
  | (k, v) :: p :: rest =>
      '"' :: k.data.flatMap escapeChar ++ '"' :: ':' :: stringifyChars v
        ++ ',' :: stringifyFields (p :: rest)

end

/-- `JSON.stringify` of a JavaScript value (always a string: `undefined`,
which stringifies to no value at all, lives at the `Option` layer of the
caller). -/
def jsonStringify (v : JSVal) : String :=
  String.mk (stringifyChars v)

/-- JSON insignificant whitespace. -/
def isJsonWs (c : Char) : Bool :=
  c = ' ' || c = '\t' || c = '\n' || c = '\r'

/-- Drop leading JSON whitespace. -/
def skipWs : List Char → List Char
  | [] => []
  | c :: cs => if isJsonWs c then skipWs cs else c :: cs

/-- Value of a hex digit character. -/
def hexVal (c : Char) : Option Nat :=
  if '0' ≤ c ∧ c ≤ '9' then some (c.toNat - '0'.toNat)
  else if 'a' ≤ c ∧ c ≤ 'f' then some (c.toNat - 'a'.toNat + 10)
  else if 'A' ≤ c ∧ c ≤ 'F' then some (c.toNat - 'A'.toNat + 10)
  else none

/-- JSON string-literal body parser: input starts right after the opening
quote; returns the decoded characters and the input remaining after the
closing quote.  Handles the named escapes and `\uXXXX` (a `\uXXXX` escape
denoting a surrogate half is rejected: the astral characters it would pair
into never occur escaped in this development's inputs).  Unescaped control
characters are rejected, as in JSON. -/
def parseStrBody : List Char → Option (List Char × List Char)
  | [] => none
  | c :: cs =>
    if c = '"' then some ([], cs)
    else if c = '\\' then
      match cs with
      | [] => none
      | e :: cs' =>
        if e = '"' then (parseStrBody cs').map (fun p => ('"' :: p.1, p.2))
        else if e = '\\' then (parseStrBody cs').map (fun p => ('\\' :: p.1, p.2))
        else if e = '/' then (parseStrBody cs').map (fun p => ('/' :: p.1, p.2))
        else if e = 'b' then (parseStrBody cs').map (fun p => ('\x08' :: p.1, p.2))
        else if e = 't' then (parseStrBody cs').map (fun p => ('\x09' :: p.1, p.2))
        else if e = 'n' then (parseStrBody cs').map (fun p => ('\x0a' :: p.1, p.2))
        else if e = 'f' then (parseStrBody cs').map (fun p => ('\x0c' :: p.1, p.2))
        else if e = 'r' then (parseStrBody cs').map (fun p => ('\x0d' :: p.1, p.2))
        else if e = 'u' then
          match cs' with
          | h1 :: h2 :: h3 :: h4 :: cs'' =>
            match hexVal h1, hexVal h2, hexVal h3, hexVal h4 with
            | some a, some b, some c3, some d =>
              let n := ((a * 16 + b) * 16 + c3) * 16 + d
              if n < 0xd800 ∨ (0xdfff < n ∧ n < 0x110000) then
                (parseStrBody cs'').map (fun p => (Char.ofNat n :: p.1, p.2))
              else none
            | _, _, _, _ => none
          | _ => none
        else none
    else if c.toNat < 0x20 then none
    else (parseStrBody cs).map (fun p => (c :: p.1, p.2))

/-- Numeric value of a list of decimal digit characters. -/
def digitsToNat (ds : List Char) : Nat :=
  ds.foldl (fun a c => a * 10 + (c.toNat - '0'.toNat)) 0

/-- JSON number parser (grammar of RFC 8259: optional minus, integer part
without leading zeros, optional fraction, optional exponent); returns the
value and the remaining input. -/
def parseNumber (cs : List Char) : Option (ℚ × List Char) :=
  let (sign, cs1) : ℚ × List Char :=
    match cs with
    | '-' :: r => (-1, r)
    | _ => (1, cs)
  let (ds, cs2) := (cs1.takeWhile Char.isDigit, cs1.dropWhile Char.isDigit)
  if ds = [] then none
  else if ds.length > 1 ∧ ds.headD '0' = '0' then none
  else
    let (fp, cs3) : List Char × List Char :=
      match cs2 with
      | '.' :: r =>
        if (r.takeWhile Char.isDigit) = [] then ([], '.' :: r)
        else (r.takeWhile Char.isDigit, r.dropWhile Char.isDigit)
      | _ => ([], cs2)
    let (expOk, e, cs4) : Bool × ℤ × List Char :=
      match cs3 with
      | 'e' :: r | 'E' :: r =>
        let (esign, r1) : ℤ × List Char :=
          match r with
          | '-' :: r' => (-1, r')
          | '+' :: r' => (1, r')
          | _ => (1, r)
        let (ed, r2) := (r1.takeWhile Char.isDigit, r1.dropWhile Char.isDigit)
        if ed = [] then (false, 0, cs3) else (true, esign * (digitsToNat ed : ℕ), r2)
      | _ => (true, 0, cs3)
    if ¬ expOk then none else
    some (sign * ((digitsToNat ds : ℚ) + (digitsToNat fp : ℚ) / (10 : ℚ) ^ fp.length)
      * (10 : ℚ) ^ e, cs4)

mutual

/-- Fuelled JSON value parser (`JSON.parse` grammar).  Fuel decreases on every
structural descent; `jsonParse` supplies more fuel than any input of its
length can consume. -/
def parseValue : Nat → List Char → Option (JSVal × List Char)
  | 0, _ => none
  | fuel + 1, cs =>
    match cs with
    | [] => none
    | c :: rest =>
      if c = '"' then
        (parseStrBody rest).map (fun p => (JSVal.str (String.mk p.1), p.2))
      else if c = '[' then
        match skipWs rest with
        | ']' :: r => some (.arr [], r)
        | cs1 => (parseElems fuel cs1).map (fun p => (JSVal.arr p.1, p.2))
      else if c = '{' then
        match skipWs rest with
        | '}' :: r => some (.obj [], r)
        | cs1 => (parseMembers fuel cs1 []).map (fun p => (JSVal.obj p.1, p.2))
      else if c = 't' then
        match rest with
        | 'r' :: 'u' :: 'e' :: r => some (.bool true, r)
        | _ => none
      else if c = 'f' then
        match rest with
        | 'a' :: 'l' :: 's' :: 'e' :: r => some (.bool false, r)
        | _ => none
      else if c = 'n' then
        match rest with
        | 'u' :: 'l' :: 'l' :: r => some (.null, r)
        | _ => none
      else (parseNumber (c :: rest)).map (fun p => (JSVal.num p.1, p.2))

/-- Parses the non-empty comma-separated element list of a JSON array,
including the closing bracket. -/
def parseElems : Nat → List Char → Option (List JSVal × List Char)
  | 0, _ => none
  | fuel + 1, cs =>
    (parseValue fuel cs).bind (fun p =>
      match skipWs p.2 with
      | ',' :: r => (parseElems fuel (skipWs r)).map (fun q => (p.1 :: q.1, q.2))
      | ']' :: r => some ([p.1], r)
      | _ => none)

/-- Parses the non-empty member list of a JSON object, including the closing
brace; a duplicate key keeps its first position with the last value, as
`JSON.parse` does. -/
def parseMembers : Nat → List Char → List (String × JSVal) →
    Option (List (String × JSVal) × List Char)
  | 0, _, _ => none
  | fuel + 1, cs, acc =>
    match cs with
    | '"' :: r =>
      (parseStrBody r).bind (fun pk =>
        match skipWs pk.2 with
        | ':' :: r2 =>
          (parseValue fuel (skipWs r2)).bind (fun pv =>
            let acc' := objSet acc (String.mk pk.1) pv.1
            match skipWs pv.2 with
            | ',' :: r4 => parseMembers fuel (skipWs r4) acc'
            | '}' :: r4 => some (acc', r4)
            | _ => none)
        | _ => none)
    | _ => none

end

/-- `JSON.parse`: parse one value surrounded by optional whitespace; any
leftover input or lexical failure yields `none` (a thrown `SyntaxError`). -/
def jsonParse (s : String) : Option JSVal :=
  match parseValue (s.length + 1) (skipWs s.data) with
  | some (v, rest) => if skipWs rest = [] then some v else none
  | none => none

/-- JavaScript `parseFloat` applied to an optional string, as in
`parseFloat(conversation.temperature)` (`none` argument is `undefined`, whose
string form does not parse; `none` result is NaN): leading whitespace skipped,
then the longest decimal-float prefix is taken and trailing input ignored.
(The `Infinity` spellings, absent from this development's inputs, are not
modelled.) -/
def parseFloatJS : Option String → Option ℚ
  | none => none
  | some s =>
    let cs := s.data.dropWhile (fun c => c = ' ' || c = '\t' || c = '\n' || c = '\r')
    let (sign, cs1) : ℚ × List Char :=
      match cs with
      | '-' :: r => (-1, r)
      | '+' :: r => (1, r)
      | _ => (1, cs)
    let (ip, cs2) := (cs1.takeWhile Char.isDigit, cs1.dropWhile Char.isDigit)
    let (fp, cs3) : List Char × List Char :=
      match cs2 with
      | '.' :: r => (r.takeWhile Char.isDigit, r.dropWhile Char.isDigit)
      | _ => ([], cs2)
    if ip = [] ∧ fp = [] then none
    else
      let base := sign * ((digitsToNat ip : ℚ) + (digitsToNat fp : ℚ) / (10 : ℚ) ^ fp.length)
      match cs3 with
      | 'e' :: r | 'E' :: r =>
        let (esign, r1) : ℤ × List Char :=
          match r with
          | '-' :: r' => (-1, r')
          | '+' :: r' => (1, r')
          | _ => (1, r)
        let ed := r1.takeWhile Char.isDigit
        if ed = [] then some base
        else some (base * (10 : ℚ) ^ (esign * (digitsToNat ed : ℤ)))
      | _ => some base

/-- A stored `Conversation` record (shared schema `conversations` table as the
in-memory `MemStorage` actually populates it: the insert payload spread plus
server-assigned `id` and `createdAt`; the SQL-level column defaults are never
applied by `MemStorage`, so every non-required field can be absent).
For `title`, the outer `Option` is field absence (`undefined`) and the inner
one the explicit SQL/JSON `null` the schema admits. -/
structure Conversation where
  id : String
  title : Option (Option String)
  content : String
  analysisType : Option String
  model : Option String
  temperature : Option String
  maxTokens : Option Int
  createdAt : Nat
deriving DecidableEq

/-- The payload accepted by `insertConversationSchema` (the `conversations`
insert columns: everything but `id`/`createdAt`). -/
structure InsertConversation where
  title : Option (Option String)
  content : String
  analysisType : Option String
  model : Option String
  temperature : Option String
  maxTokens : Option Int
deriving DecidableEq

/-- The payload the analyze handler passes to `storage.createAnalysis`
(`src/server/routes.ts`): the descriptive fields are whatever `JSON.parse`
produced (possibly absent), `recommendations` is the `JSON.stringify` of the
parsed value (absent when the field was absent, since
`JSON.stringify(undefined)` is `undefined`), and the four scores are the
`toString()` of the sanitized numbers. -/
structure InsertAnalysis where
  conversationId : String
  emotionalTone : Option JSVal
  powerDynamics : Option JSVal
  communicationPatterns : Option JSVal
  relationshipInsights : Option JSVal
  recommendations : Option String
  emotionalIntensity : String
  resolutionPotential : String
  communicationQuality : String
  powerBalance : String
  rawAnalysis : Option JSVal

/-- A stored `Analysis` record: the insert payload spread plus server-assigned
`id` and `createdAt`, exactly as `MemStorage.createAnalysis` builds it. -/
structure Analysis where
  id : String
  conversationId : String
  emotionalTone : Option JSVal
  powerDynamics : Option JSVal
  communicationPatterns : Option JSVal
  relationshipInsights : Option JSVal
  recommendations : Option String
  emotionalIntensity : String
  resolutionPotential : String
  communicationQuality : String
  powerBalance : String
  rawAnalysis : Option JSVal
  createdAt : Nat

/-- A JavaScript `Map` keyed by strings: an insertion-ordered association
list. -/
def mapGet (m : List (String × α)) (k : String) : Option α :=
  (m.find? (fun p => p.1 == k)).map (fun p => p.2)

/-- `Map.set`: replaces the value of an existing key in place, otherwise
appends the new entry (JS `Map` iteration-order semantics). -/
def mapSet : List (String × α) → String → α → List (String × α)
  | [], k, v => [(k, v)]
  | (k', v') :: rest, k, v =>
      if k' = k then (k, v) :: rest else (k', v') :: mapSet rest k v

/-- `Array.from(map.values())`: values in insertion order. -/
def mapValues (m : List (String × α)) : List α :=
  m.map (fun p => p.2)

/-- The two `Map`s of `MemStorage` that the analyzed routes touch (the unused
`users` map is omitted). -/
structure StoreState where
  conversations : List (String × Conversation)
  analyses : List (String × Analysis)

/-- `MemStorage.createConversation`: spread of the insert payload plus a fresh
`randomUUID()` (supplied here as the `uuid` oracle argument) and
`new Date()` (`now`). -/
def createConversation (st : StoreState) (uuid : String) (now : Nat)
    (insertConversation : InsertConversation) : Conversation × StoreState :=
  let conversation : Conversation :=
    { id := uuid
      title := insertConversation.title
      content := insertConversation.content
      analysisType := insertConversation.analysisType
      model := insertConversation.model
      temperature := insertConversation.temperature
      maxTokens := insertConversation.maxTokens
      createdAt := now }
  (conversation, { st with conversations := mapSet st.conversations uuid conversation })

/-- `MemStorage.getConversation`. -/
def getConversation (st : StoreState) (id : String) : Option Conversation :=
  mapGet st.conversations id

/-- `MemStorage.getConversations`: values sorted by `createdAt` descending.
JavaScript `Array.prototype.sort` is a stable sort and the comparator
`(a, b) => b.getTime() - a.getTime()` keeps `a` before `b` exactly when
`b.createdAt ≤ a.createdAt`; `List.mergeSort` with that relation is the
stable sort realizing it. -/
def getConversations (st : StoreState) : List Conversation :=
  (mapValues st.conversations).mergeSort (fun a b => decide (b.createdAt ≤ a.createdAt))

/-- `MemStorage.createAnalysis`: spread of the insert payload plus fresh id
and timestamp. -/
def createAnalysis (st : StoreState) (uuid : String) (now : Nat)
    (insertAnalysis : InsertAnalysis) : Analysis × StoreState :=
  let analysis : Analysis :=
    { id := uuid
      conversationId := insertAnalysis.conversationId
      emotionalTone := insertAnalysis.emotionalTone
      powerDynamics := insertAnalysis.powerDynamics
      communicationPatterns := insertAnalysis.communicationPatterns
      relationshipInsights := insertAnalysis.relationshipInsights
      recommendations := insertAnalysis.recommendations
      emotionalIntensity := insertAnalysis.emotionalIntensity
      resolutionPotential := insertAnalysis.resolutionPotential
      communicationQuality := insertAnalysis.communicationQuality
      powerBalance := insertAnalysis.powerBalance
      rawAnalysis := insertAnalysis.rawAnalysis
      createdAt := now }
  (analysis, { st with analyses := mapSet st.analyses uuid analysis })

/-- `MemStorage.getAnalysis`: the first stored analysis (in insertion order)
whose `conversationId` matches. -/
def getAnalysis (st : StoreState) (conversationId : String) : Option Analysis :=
  (mapValues st.analyses).find? (fun analysis => analysis.conversationId == conversationId)

/-- `MemStorage.getAnalyses`: values sorted by `createdAt` descending (same
comparator as `getConversations`). -/
def getAnalyses (st : StoreState) : List Analysis :=
  (mapValues st.analyses).mergeSort (fun a b => decide (b.createdAt ≤ a.createdAt))

/-- The input `analyzeConversation` receives
(`ConversationAnalysisRequest` in `src/server/services/openai.ts`); the
handler fills it from the stored conversation only, so fields a stored record
can lack are optional and `temperature` is already the `parseFloat` result
(`none` = NaN). -/
structure ConversationAnalysisRequest where
  conversation : String
  analysisType : Option String
  model : Option String
  temperature : Option ℚ
  maxTokens : Option Int
deriving DecidableEq

/-- Outcome of one `openai.chat.completions.create` call: either the call
threw (network/provider error with a message) or it returned, with
`choices[0].message.content` being `none` (`null`) or a string. -/
inductive ChatOutcome where
  | failure (msg : String)
  | success (content : Option String)

/-- The remote provider as an oracle: given the outbound request and the index
of the call (0 for the first), the outcome of that call.  The implementation
performs exactly one un-retried call, so only index 0 is ever consulted. -/
def ChatOracle : Type :=
  ConversationAnalysisRequest → Nat → ChatOutcome

/-- `Number.prototype.toString()` for the values a sanitized score can be
(a finite number or NaN); other constructors cannot occur there. -/
def scoreToText : JSVal → String
  | .num q => qToText q
  | .nan => "NaN"
  | _ => ""

/-- `analyzeConversation` (`src/server/services/openai.ts`): one provider
call; empty or missing content is an error; the content is `JSON.parse`d and
the four scores sanitized in place.  Every failure inside the `try` is caught
and rethrown as `Failed to analyze conversation: <cause>`.  A parse result
that is not an object makes the subsequent property access/assignment throw a
`TypeError` in strict mode, which the same catch wraps.  (The prompt strings
built from the request influence only the oracle's view of the request and
are not reproduced here.) -/
def analyzeConversation (request : ConversationAnalysisRequest)
    (chat : ChatOracle) : Except String (List (String × JSVal)) :=
  match chat request 0 with
  | .failure m => .error ("Failed to analyze conversation: " ++ m)
  | .success none =>
      .error "Failed to analyze conversation: No response content received from OpenAI"
  | .success (some content) =>
      if content = "" then
        .error "Failed to analyze conversation: No response content received from OpenAI"
      else
        match jsonParse content with
        | none => .error "Failed to analyze conversation: Unexpected token in JSON"
        | some (.obj fs) => .ok (sanitizeFields fs)
        | some _ => .error "Failed to analyze conversation: TypeError"

/-- The result of one Express handler run: `res.json(value)` (status 200) or
`res.status(s).json(message)`. -/
inductive ApiResult (α : Type) where
  | success (value : α)
  | failure (status : Nat) (message : String)

/-- The `analysisRequest` object the analyze handler builds
(`src/server/routes.ts`), from the stored conversation's own fields only. -/
def requestOfConversation (conversation : Conversation) : ConversationAnalysisRequest :=
  { conversation := conversation.content
    analysisType := conversation.analysisType
    model := conversation.model
    temperature := parseFloatJS conversation.temperature
    maxTokens := conversation.maxTokens }

/-- POST `/api/conversations/:id/analyze` (`src/server/routes.ts`).  `body`
is the request body, which the source handler never reads; `uuid`/`now` are
the id and timestamp oracles consumed by `createAnalysis` on the success
path.  Any error thrown inside the `try` (provider failure, bad content) is
answered with status 500 and the error's message, and reaches no store
write. -/
def analyzeConversationRoute (st : StoreState) (id : String) (body : JSVal)
    (chat : ChatOracle) (uuid : String) (now : Nat) :
    ApiResult (Analysis × List (String × JSVal)) × StoreState :=
  match getConversation st id with
  | none => (.failure 404 "Conversation not found", st)
  | some conversation =>
    let analysisRequest := requestOfConversation conversation
    match analyzeConversation analysisRequest chat with
    | .error m => (.failure 500 m, st)
    | .ok analysisResult =>
      let (analysis, st') := createAnalysis st uuid now
        { conversationId := conversation.id
          emotionalTone := objGet analysisResult "emotionalTone"
          powerDynamics := objGet analysisResult "powerDynamics"
          communicationPatterns := objGet analysisResult "communicationPatterns"
          relationshipInsights := objGet analysisResult "relationshipInsights"
          recommendations := (objGet analysisResult "recommendations").map jsonStringify
          emotionalIntensity :=
            scoreToText ((objGet analysisResult "emotionalIntensity").getD .nan)
          resolutionPotential :=
            scoreToText ((objGet analysisResult "resolutionPotential").getD .nan)
          communicationQuality :=
            scoreToText ((objGet analysisResult "communicationQuality").getD .nan)
          powerBalance :=
            scoreToText ((objGet analysisResult "powerBalance").getD .nan)
          rawAnalysis := objGet analysisResult "rawAnalysis" }
      (.success (analysis, analysisResult), st')

/-- Per-field checks of the zod schema drizzle-zod derives for the
`conversations` table: a nullable column without default becomes an optional
nullable string. -/
def zodOptionalNullableString (fs : List (String × JSVal)) (k : String) :
    Except String (Option (Option String)) :=
  match objGet fs k with
  | none => .ok none
  | some .null => .ok (some none)
  | some (.str s) => .ok (some (some s))
  | some _ => .error (k ++ ": Expected string")

/-- A `notNull` text column without default becomes a required string (any
string, the empty one included: no length constraint is derived). -/
def zodRequiredString (fs : List (String × JSVal)) (k : String) :
    Except String String :=
  match objGet fs k with
  | some (.str s) => .ok s
  | none => .error (k ++ ": Required")
  | some _ => .error (k ++ ": Expected string")

/-- A `notNull` text column with a default becomes an optional
(non-nullable) string; the zod layer never substitutes the SQL default. -/
def zodOptionalString (fs : List (String × JSVal)) (k : String) :
    Except String (Option String) :=
  match objGet fs k with
  | none => .ok none
  | some (.str s) => .ok (some s)
  | some _ => .error (k ++ ": Expected string")

/-- A `notNull` integer column with a default becomes an optional integer
number; no membership in any enumerated set is checked. -/
def zodOptionalInteger (fs : List (String × JSVal)) (k : String) :
    Except String (Option Int) :=
  match objGet fs k with
  | none => .ok none
  | some (.num q) =>
      if q.den = 1 then .ok (some q.num) else .error (k ++ ": Expected integer")
  | some _ => .error (k ++ ": Expected number")

/-- `insertConversationSchema.parse(req.body)`: the zod object schema
drizzle-zod derives from the `conversations` table minus `id`/`createdAt`.
Unknown keys are stripped; a non-object body is rejected; each declared field
is checked by type only (the real schema aggregates all field issues into one
thrown error message, modelled here by the first failing field's message). -/
def insertConversationSchemaParse (body : JSVal) : Except String InsertConversation :=
  match body with
  | .obj fs => do
    let title ← zodOptionalNullableString fs "title"
    let content ← zodRequiredString fs "content"
    let analysisType ← zodOptionalString fs "analysisType"
    let model ← zodOptionalString fs "model"
    let temperature ← zodOptionalString fs "temperature"
    let maxTokens ← zodOptionalInteger fs "maxTokens"
    .ok { title := title, content := content, analysisType := analysisType,
          model := model, temperature := temperature, maxTokens := maxTokens }
  | _ => .error "Expected object"

/-- POST `/api/conversations` (`src/server/routes.ts`): validate the body,
store, answer with the new record; the single catch answers status 400 with
the thrown error's message. -/
def createConversationRoute (st : StoreState) (body : JSVal) (uuid : String)
    (now : Nat) : ApiResult Conversation × StoreState :=
  match insertConversationSchemaParse body with
  | .error m => (.failure 400 m, st)
  | .ok validatedData =>
    let (conversation, st') := createConversation st uuid now validatedData
    (.success conversation, st')

/-- The same POST `/api/conversations` handler, with the awaited
`storage.createConversation` call abstracted to its outcome: the handler's
single `try`/`catch` wraps both the schema parse and the storage call, so a
storage-layer throw is answered exactly like a validation error — status 400
with the error's message. -/
def createConversationResponse (body : JSVal)
    (create : InsertConversation → Except String Conversation) : ApiResult Conversation :=
  match insertConversationSchemaParse body with
  | .error m => .failure 400 m
  | .ok validatedData =>
    match create validatedData with
    | .error m => .failure 400 m
    | .ok conversation => .success conversation

/-- GET `/api/conversations/:id/analysis` (`src/server/routes.ts`): the stored
record, verbatim, or 404. -/
def getAnalysisRoute (st : StoreState) (id : String) : ApiResult Analysis :=
  match getAnalysis st id with
  | none => .failure 404 "Analysis not found"
  | some analysis => .success analysis

section MapLemmas

variable {α : Type}

/-- Reading one step of a map. -/
theorem mapGet_cons (k0 : String) (v0 : α) (tl : List (String × α)) (k' : String) :
    mapGet ((k0, v0) :: tl) k' = if k0 = k' then some v0 else mapGet tl k' := by
  by_cases h : k0 = k'
  · simp [mapGet, List.find?, h]
  · have hb : (k0 == k') = false := beq_eq_false_iff_ne.mpr h
    simp [mapGet, List.find?, hb, h]

/-- Reading a map after `mapSet`: the written key holds the new value, every
other key is untouched. -/
theorem mapGet_mapSet (m : List (String × α)) (k k' : String) (v : α) :
    mapGet (mapSet m k v) k' = if k' = k then some v else mapGet m k' := by
  induction m with
  | nil =>
    by_cases h : k' = k
    · subst h; simp [mapSet, mapGet_cons]
    · have h2 : ¬ k = k' := fun hc => h hc.symm
      simp [mapSet, mapGet_cons, h2, h, mapGet]
  | cons hd tl ih =>
    obtain ⟨k0, v0⟩ := hd
    by_cases h0 : k0 = k
    · subst h0
      have hset : mapSet ((k0, v0) :: tl) k0 v = (k0, v) :: tl := by
        simp [mapSet]
      rw [hset, mapGet_cons, mapGet_cons]
      by_cases h : k0 = k'
      · subst h; simp
      · have h' : ¬ k' = k0 := fun hc => h hc.symm
        simp [h, h']
    · simp only [mapSet, if_neg h0, mapGet_cons, ih]
      by_cases h1 : k0 = k'
      · subst h1
        have h2 : ¬ k0 = k := h0
        simp [fun hc : k0 = k => h2 hc]
      · simp [h1]

end MapLemmas

/-- `objSet` is the `mapSet` semantics at `JSVal`. -/
theorem objSet_eq_mapSet : ∀ (fs : List (String × JSVal)) (k : String) (v : JSVal),
    objSet fs k v = mapSet fs k v
  | [], _, _ => rfl
  | (k', v') :: rest, k, v => by
    simp [objSet, mapSet, objSet_eq_mapSet rest k v]

/-- Reading an object property after a property write: the written key holds
the new value, every other key is untouched. -/
theorem objGet_objSet (fs : List (String × JSVal)) (k k' : String) (v : JSVal) :
    objGet (objSet fs k v) k' = if k' = k then some v else objGet fs k' := by
  have h1 : ∀ gs : List (String × JSVal), objGet gs k' = mapGet gs k' := fun _ => rfl
  rw [h1, h1, objSet_eq_mapSet, mapGet_mapSet]

/-- C3.  The analyze handler builds the requestor input solely from the
stored conversation's own fields; the HTTP request body has no influence: two
analyze calls for the same stored conversation and oracle state with
different bodies produce identical requestor inputs and identical outcomes,
and the input sent is exactly `{ content, analysisType, model,
parseFloat(temperature), maxTokens }` of the stored record. -/
theorem analyze_request_body_independent (st : StoreState) (id : String)
    (b1 b2 : JSVal) (chat : ChatOracle) (uuid : String) (now : Nat) :
    analyzeConversationRoute st id b1 chat uuid now
      = analyzeConversationRoute st id b2 chat uuid now
    ∧ (∀ conversation, getConversation st id = some conversation →
        requestOfConversation conversation =
          { conversation := conversation.content
            analysisType := conversation.analysisType
            model := conversation.model
            temperature := parseFloatJS conversation.temperature
            maxTokens := conversation.maxTokens }) := by
  exact ⟨rfl, fun _ _ => rfl⟩

/-- Witness for C3 at a concrete store, conversation and pair of distinct
bodies. -/
theorem analyze_request_body_independent_witness :
    analyzeConversationRoute
        ⟨[("c1", ⟨"c1", none, "hello", some "General Psychological Analysis",
           some "gpt-4o", some "0.7", some 500, 3⟩)], []⟩
        "c1" (JSVal.str "ignored body A") (fun _ _ => .failure "down") "u" 9
      = analyzeConversationRoute
        ⟨[("c1", ⟨"c1", none, "hello", some "General Psychological Analysis",
           some "gpt-4o", some "0.7", some 500, 3⟩)], []⟩
        "c1" (JSVal.obj [("other", JSVal.num 1)]) (fun _ _ => .failure "down") "u" 9
    ∧ requestOfConversation
        ⟨"c1", none, "hello", some "General Psychological Analysis",
         some "gpt-4o", some "0.7", some 500, 3⟩
      = { conversation := "hello"
          analysisType := some "General Psychological Analysis"
          model := some "gpt-4o"
          temperature := parseFloatJS (some "0.7")
          maxTokens := some 500 } := by
  refine ⟨(analyze_request_body_independent _ "c1" _ _ _ "u" 9).1, ?_⟩
  exact (analyze_request_body_independent
      ⟨[("c1", ⟨"c1", none, "hello", some "General Psychological Analysis",
         some "gpt-4o", some "0.7", some 500, 3⟩)], []⟩
      "c1" (JSVal.str "ignored body A") (JSVal.str "ignored body A")
      (fun _ _ => .failure "down") "u" 9).2 _ rfl

/-- C7.  Analyzing an id absent from the store answers 404
`Conversation not found`, leaves the whole store (in particular the analysis
collection) unchanged, and never invokes the Analysis Requestor: the outcome
is independent of the provider oracle and of the id/timestamp oracles the
success path would consume. -/
theorem analyze_missing_conversation_404 (st : StoreState) (id : String)
    (body : JSVal) (chat : ChatOracle) (uuid : String) (now : Nat)
    (habsent : getConversation st id = none) :
    analyzeConversationRoute st id body chat uuid now
      = (.failure 404 "Conversation not found", st)
    ∧ (analyzeConversationRoute st id body chat uuid now).2.analyses = st.analyses
    ∧ (∀ (chat2 : ChatOracle) (uuid2 : String) (now2 : Nat),
        analyzeConversationRoute st id body chat2 uuid2 now2
          = analyzeConversationRoute st id body chat uuid now) := by
  refine ⟨?_, ?_, ?_⟩ <;>
    simp [analyzeConversationRoute, habsent]

/-- Witness for C7: the empty store, an arbitrary body, an oracle that would
fail loudly if consulted. -/
theorem analyze_missing_conversation_404_witness :
    analyzeConversationRoute ⟨[], []⟩ "nope" JSVal.null
        (fun _ _ => .success (some "{}")) "u" 0
      = (.failure 404 "Conversation not found", (⟨[], []⟩ : StoreState)) :=
  (analyze_missing_conversation_404 ⟨[], []⟩ "nope" JSVal.null
      (fun _ _ => .success (some "{}")) "u" 0 rfl).1

/-- C9.  Every failure inside the create-conversation handler — a
storage-layer fault during `createConversation` as much as a schema
violation — is answered with status 400 and the error's message; no failure
of this endpoint is reported as a 5xx. -/
theorem create_conversation_failures_are_400 (body : JSVal)
    (create : InsertConversation → Except String Conversation) :
    (∀ s m, createConversationResponse body create = .failure s m → s = 400)
    ∧ (∀ validatedData e, insertConversationSchemaParse body = .ok validatedData →
        create validatedData = .error e →
        createConversationResponse body create = .failure 400 e) := by
  constructor
  · intro s m h
    cases hp : insertConversationSchemaParse body with
    | error m' =>
      simp [createConversationResponse, hp] at h
      exact h.1.symm
    | ok d =>
      cases hc : create d with
      | error e =>
        simp [createConversationResponse, hp, hc] at h
        exact h.1.symm
      | ok c =>
        simp [createConversationResponse, hp, hc] at h
  · intro d e hp hc
    simp [createConversationResponse, hp, hc]

/-- Witness for C9: a valid body with a failing storage call is answered 400
with the storage error's message. -/
theorem create_conversation_failures_are_400_witness :
    createConversationResponse (JSVal.obj [("content", JSVal.str "hi")])
        (fun _ => .error "disk full")
      = .failure 400 "disk full" :=
  (create_conversation_failures_are_400 (JSVal.obj [("content", JSVal.str "hi")])
      (fun _ => .error "disk full")).2
    ⟨none, "hi", none, none, none, none⟩ "disk full" rfl rfl

/-- C10.  Each create operation on the in-memory store inserts only under the
freshly assigned key: every record stored before the call is still read back
unchanged afterwards, the other collection is untouched, and the returned
record carries the server-assigned id and timestamp.  (Freshness of
`randomUUID()` is the hypothesis.) -/
theorem creates_insert_only_fresh_key (st : StoreState) (uuid : String)
    (now : Nat) (dc : InsertConversation) (da : InsertAnalysis) :
    (mapGet st.conversations uuid = none →
      (createConversation st uuid now dc).1.id = uuid
      ∧ (createConversation st uuid now dc).1.createdAt = now
      ∧ (∀ k c, mapGet st.conversations k = some c →
          mapGet (createConversation st uuid now dc).2.conversations k = some c)
      ∧ (createConversation st uuid now dc).2.analyses = st.analyses)
    ∧ (mapGet st.analyses uuid = none →
      (createAnalysis st uuid now da).1.id = uuid
      ∧ (createAnalysis st uuid now da).1.createdAt = now
      ∧ (∀ k a, mapGet st.analyses k = some a →
          mapGet (createAnalysis st uuid now da).2.analyses k = some a)
      ∧ (createAnalysis st uuid now da).2.conversations = st.conversations) := by
  constructor
  · intro hfresh
    refine ⟨rfl, rfl, ?_, rfl⟩
    intro k c hk
    have hne : k ≠ uuid := fun he => by rw [he, hfresh] at hk; cases hk
    simpa [createConversation, mapGet_mapSet, hne] using hk
  · intro hfresh
    refine ⟨rfl, rfl, ?_, rfl⟩
    intro k a hk
    have hne : k ≠ uuid := fun he => by rw [he, hfresh] at hk; cases hk
    simpa [createAnalysis, mapGet_mapSet, hne] using hk

/-- Witness for C10: creating under a fresh id next to one existing
conversation leaves the existing record readable unchanged, and the new
record carries the assigned id and timestamp. -/
theorem creates_insert_only_fresh_key_witness :
    (createConversation
        ⟨[("a", ⟨"a", none, "old", none, none, none, none, 1⟩)], []⟩
        "b" 7 ⟨none, "new", none, none, none, none⟩).1.id = "b"
    ∧ mapGet (createConversation
        ⟨[("a", ⟨"a", none, "old", none, none, none, none, 1⟩)], []⟩
        "b" 7 ⟨none, "new", none, none, none, none⟩).2.conversations "a"
      = some ⟨"a", none, "old", none, none, none, none, 1⟩ := by
  have h := (creates_insert_only_fresh_key
      ⟨[("a", ⟨"a", none, "old", none, none, none, none, 1⟩)], []⟩ "b" 7
      ⟨none, "new", none, none, none, none⟩
      ⟨"a", none, none, none, none, none, "0", "0", "0", "0", none⟩).1 rfl
  exact ⟨h.1, h.2.2.1 "a" ⟨"a", none, "old", none, none, none, none, 1⟩ rfl⟩

/-- What the four sequential score assignments do to any one read key: a
score key holds the sanitization of its own raw value in the original parsed
object (each assignment touches a distinct key, so the later reads see the
original values), and every other key is untouched. -/
theorem objGet_sanitizeFields (fs : List (String × JSVal)) (k : String) :
    objGet (sanitizeFields fs) k =
      if k ∈ scoreKeys then some (sanitizeScore (objGet fs k)) else objGet fs k := by
  by_cases h1 : k = "emotionalIntensity"
  · subst h1; simp [sanitizeFields, objGet_objSet, scoreKeys]
  · by_cases h2 : k = "resolutionPotential"
    · subst h2; simp [sanitizeFields, objGet_objSet, scoreKeys]
    · by_cases h3 : k = "communicationQuality"
      · subst h3; simp [sanitizeFields, objGet_objSet, scoreKeys]
      · by_cases h4 : k = "powerBalance"
        · subst h4; simp [sanitizeFields, objGet_objSet, scoreKeys]
        · simp [sanitizeFields, objGet_objSet, scoreKeys, h1, h2, h3, h4]

/-- C1 counterexample.  The claim says a non-numeric raw score value is
treated as 0 before clamping, leaving every score in [0, 10].  It is not: a
truthy non-numeric value survives `x || 0` and `Math.min`/`Math.max` coerce
it, so the provider response `{"emotionalIntensity": "abc"}` yields the score
NaN — not 0, and not a number in [0, 10] at all. -/
theorem scores_nonnumeric_counterexample :
    objGet (sanitizeFields [("emotionalIntensity", JSVal.str "abc")]) "emotionalIntensity"
      = some JSVal.nan
    ∧ JSVal.nan ≠ JSVal.num 0
    ∧ sanitizeScore (some (JSVal.str "abc")) = JSVal.nan := by
  refine ⟨rfl, fun h => JSVal.noConfusion h, rfl⟩

/-- C1 (amended).  For every parsed provider response object: a score field
whose raw value is a JSON number is clamped into [0, 10] (so the documented
raws −5, 0, 7.3, 15 become 0, 0, 7.3, 10); a missing raw value (and, by the
same falsy route, `null`, `false`, `0` or `""`) becomes 0; every other field
of the parsed JSON passes through unmodified.  A truthy non-numeric raw value
is not treated as 0 but coerced, which can leave NaN in the field (see the
counterexample). -/
theorem scores_clamped_for_numeric_raw (fs : List (String × JSVal)) (k : String)
    (hk : k ∈ scoreKeys) :
    (∀ q : ℚ, objGet fs k = some (JSVal.num q) →
      objGet (sanitizeFields fs) k = some (JSVal.num (max 0 (min 10 q)))
      ∧ 0 ≤ max 0 (min 10 q) ∧ max 0 (min 10 q) ≤ 10)
    ∧ (objGet fs k = none → objGet (sanitizeFields fs) k = some (JSVal.num 0))
    ∧ (∀ k', k' ∉ scoreKeys → objGet (sanitizeFields fs) k' = objGet fs k') := by
  refine ⟨?_, ?_, ?_⟩
  · intro q hq
    rw [objGet_sanitizeFields, if_pos hk, hq]
    refine ⟨?_, le_max_left 0 _, max_le (by norm_num) (min_le_left 10 q)⟩
    unfold sanitizeScore
    by_cases h0 : q = 0
    · subst h0; simp [truthy, toNumber]
    · simp [truthy, toNumber, bne, h0]
  · intro hq
    rw [objGet_sanitizeFields, if_pos hk, hq]
    unfold sanitizeScore
    norm_num [toNumber]
  · intro k' hk'
    rw [objGet_sanitizeFields, if_neg hk']

/-- Witness for C1 (amended) at the documented raw values −5, 0, 7.3, 15
(mapped to 0, 0, 7.3, 10) plus one untouched pass-through field. -/
theorem scores_clamped_for_numeric_raw_witness :
    objGet (sanitizeFields
        [("emotionalIntensity", JSVal.num (-5)), ("resolutionPotential", JSVal.num 0),
         ("communicationQuality", JSVal.num (73 / 10)), ("powerBalance", JSVal.num 15),
         ("emotionalTone", JSVal.str "tense")]) "emotionalIntensity"
      = some (JSVal.num 0)
    ∧ objGet (sanitizeFields
        [("emotionalIntensity", JSVal.num (-5)), ("resolutionPotential", JSVal.num 0),
         ("communicationQuality", JSVal.num (73 / 10)), ("powerBalance", JSVal.num 15),
         ("emotionalTone", JSVal.str "tense")]) "resolutionPotential"
      = some (JSVal.num 0)
    ∧ objGet (sanitizeFields
        [("emotionalIntensity", JSVal.num (-5)), ("resolutionPotential", JSVal.num 0),
         ("communicationQuality", JSVal.num (73 / 10)), ("powerBalance", JSVal.num 15),
         ("emotionalTone", JSVal.str "tense")]) "communicationQuality"
      = some (JSVal.num (73 / 10))
    ∧ objGet (sanitizeFields
        [("emotionalIntensity", JSVal.num (-5)), ("resolutionPotential", JSVal.num 0),
         ("communicationQuality", JSVal.num (73 / 10)), ("powerBalance", JSVal.num 15),
         ("emotionalTone", JSVal.str "tense")]) "powerBalance"
      = some (JSVal.num 10)
    ∧ objGet (sanitizeFields
        [("emotionalIntensity", JSVal.num (-5)), ("resolutionPotential", JSVal.num 0),
         ("communicationQuality", JSVal.num (73 / 10)), ("powerBalance", JSVal.num 15),
         ("emotionalTone", JSVal.str "tense")]) "emotionalTone"
      = some (JSVal.str "tense") := by
  have h1 := ((scores_clamped_for_numeric_raw
      [("emotionalIntensity", JSVal.num (-5)), ("resolutionPotential", JSVal.num 0),
       ("communicationQuality", JSVal.num (73 / 10)), ("powerBalance", JSVal.num 15),
       ("emotionalTone", JSVal.str "tense")] "emotionalIntensity" (by decide)).1
      (-5) rfl).1
  have h2 := ((scores_clamped_for_numeric_raw
      [("emotionalIntensity", JSVal.num (-5)), ("resolutionPotential", JSVal.num 0),
       ("communicationQuality", JSVal.num (73 / 10)), ("powerBalance", JSVal.num 15),
       ("emotionalTone", JSVal.str "tense")] "resolutionPotential" (by decide)).1
      0 rfl).1
  have h3 := ((scores_clamped_for_numeric_raw
      [("emotionalIntensity", JSVal.num (-5)), ("resolutionPotential", JSVal.num 0),
       ("communicationQuality", JSVal.num (73 / 10)), ("powerBalance", JSVal.num 15),
       ("emotionalTone", JSVal.str "tense")] "communicationQuality" (by decide)).1
      (73 / 10) rfl).1
  have h4 := ((scores_clamped_for_numeric_raw
      [("emotionalIntensity", JSVal.num (-5)), ("resolutionPotential", JSVal.num 0),
       ("communicationQuality", JSVal.num (73 / 10)), ("powerBalance", JSVal.num 15),
       ("emotionalTone", JSVal.str "tense")] "powerBalance" (by decide)).1
      15 rfl).1
  have h5 := (scores_clamped_for_numeric_raw
      [("emotionalIntensity", JSVal.num (-5)), ("resolutionPotential", JSVal.num 0),
       ("communicationQuality", JSVal.num (73 / 10)), ("powerBalance", JSVal.num 15),
       ("emotionalTone", JSVal.str "tense")] "emotionalIntensity" (by decide)).2.2
      "emotionalTone" (by decide)
  rw [(show max 0 (min 10 (-5 : ℚ)) = 0 by norm_num)] at h1
  rw [(show max 0 (min 10 (0 : ℚ)) = 0 by norm_num)] at h2
  rw [(show max 0 (min 10 (73 / 10 : ℚ)) = 73 / 10 by norm_num)] at h3
  rw [(show max 0 (min 10 (15 : ℚ)) = 10 by norm_num)] at h4
  exact ⟨h1, h2, h3, h4, h5.trans rfl⟩

/-- C2.  For an existing conversation, when the provider call returns empty
or missing content, or text that is not parseable JSON, the analyze route
fails with status 500 and a message carrying the underlying cause behind the
`Failed to analyze conversation: ` wrapper, the whole store — in particular
the analysis collection — is unchanged, and the call is not retried: the
outcome depends only on the first (index-0) provider call. -/
theorem analyze_bad_provider_response_no_persistence (st : StoreState)
    (id : String) (body : JSVal) (chat : ChatOracle) (uuid : String) (now : Nat)
    (conversation : Conversation)
    (hconv : getConversation st id = some conversation)
    (hbad : chat (requestOfConversation conversation) 0 = .success none
      ∨ ∃ c, chat (requestOfConversation conversation) 0 = .success (some c)
           ∧ (c = "" ∨ jsonParse c = none)) :
    (∃ cause, (analyzeConversationRoute st id body chat uuid now).1
        = .failure 500 ("Failed to analyze conversation: " ++ cause))
    ∧ (analyzeConversationRoute st id body chat uuid now).2 = st
    ∧ (∀ chat2 : ChatOracle,
        chat2 (requestOfConversation conversation) 0
            = chat (requestOfConversation conversation) 0 →
        analyzeConversationRoute st id body chat2 uuid now
          = analyzeConversationRoute st id body chat uuid now) := by
  have hana : ∃ cause, analyzeConversation (requestOfConversation conversation) chat
      = .error ("Failed to analyze conversation: " ++ cause) := by
    rcases hbad with h | ⟨c, hc, hcase⟩
    · refine ⟨"No response content received from OpenAI", ?_⟩
      unfold analyzeConversation
      rw [h]
      rfl
    · by_cases hce : c = ""
      · subst hce
        refine ⟨"No response content received from OpenAI", ?_⟩
        unfold analyzeConversation
        rw [hc]
        rfl
      · have hparse : jsonParse c = none := by
          rcases hcase with h | h
          · exact absurd h hce
          · exact h
        refine ⟨"Unexpected token in JSON", ?_⟩
        unfold analyzeConversation
        rw [hc]
        dsimp only
        rw [if_neg hce, hparse]
        rfl
  obtain ⟨cause, hres⟩ := hana
  refine ⟨⟨cause, ?_⟩, ?_, ?_⟩
  · simp [analyzeConversationRoute, hconv, hres]
  · simp [analyzeConversationRoute, hconv, hres]
  · intro chat2 h2
    have heq : analyzeConversation (requestOfConversation conversation) chat2
        = analyzeConversation (requestOfConversation conversation) chat := by
      unfold analyzeConversation
      rw [h2]
    simp only [analyzeConversationRoute, hconv]
    rw [heq]

/-- Witness for C2: one stored conversation, a provider returning the
non-JSON text `not json`; the route answers 500 with a wrapped cause and the
store is unchanged. -/
theorem analyze_bad_provider_response_no_persistence_witness :
    (∃ cause, (analyzeConversationRoute
        ⟨[("c1", ⟨"c1", none, "hi", none, none, none, none, 1⟩)], []⟩
        "c1" JSVal.null (fun _ _ => .success (some "not json")) "u" 2).1
        = .failure 500 ("Failed to analyze conversation: " ++ cause))
    ∧ (analyzeConversationRoute
        ⟨[("c1", ⟨"c1", none, "hi", none, none, none, none, 1⟩)], []⟩
        "c1" JSVal.null (fun _ _ => .success (some "not json")) "u" 2).2
      = ⟨[("c1", ⟨"c1", none, "hi", none, none, none, none, 1⟩)], []⟩ := by
  have h := analyze_bad_provider_response_no_persistence
      ⟨[("c1", ⟨"c1", none, "hi", none, none, none, none, 1⟩)], []⟩
      "c1" JSVal.null (fun _ _ => .success (some "not json")) "u" 2
      ⟨"c1", none, "hi", none, none, none, none, 1⟩ rfl
      (Or.inr ⟨"not json", rfl, Or.inr rfl⟩)
  exact ⟨h.1, h.2.1⟩

/-- If the required-string check succeeds the field was present as a
string. -/
theorem zodRequiredString_ok {fs : List (String × JSVal)} {k s : String}
    (h : zodRequiredString fs k = .ok s) : objGet fs k = some (.str s) := by
  unfold zodRequiredString at h
  split at h
  · injection h with h'
    subst h'
    assumption
  · exact Except.noConfusion h
  · exact Except.noConfusion h

/-- If the schema accepts a body object, the `content` key was present in it
as a string (the validated `content`). -/
theorem schemaParse_ok_content {fs : List (String × JSVal)} {d : InsertConversation}
    (h : insertConversationSchemaParse (JSVal.obj fs) = .ok d) :
    objGet fs "content" = some (.str d.content) := by
  unfold insertConversationSchemaParse at h
  simp only [bind, Except.bind] at h
  split at h
  · exact Except.noConfusion h
  rename_i title htitle
  split at h
  · exact Except.noConfusion h
  rename_i content hcontent
  split at h
  · exact Except.noConfusion h
  rename_i analysisType hanalysisType
  split at h
  · exact Except.noConfusion h
  rename_i model hmodel
  split at h
  · exact Except.noConfusion h
  rename_i temperature htemperature
  split at h
  · exact Except.noConfusion h
  rename_i maxTokens hmaxTokens
  injection h with h'
  subst h'
  exact zodRequiredString_ok hcontent

/-- C4 counterexample.  The claim says a creation request whose `content` is
the empty string is rejected and stores nothing.  It is not: the derived zod
schema only requires `content` to be a string, so the empty string is
accepted, stored and retrievable under the assigned id. -/
theorem create_empty_content_accepted_counterexample :
    (createConversationRoute ⟨[], []⟩
        (JSVal.obj [("content", JSVal.str "")]) "u1" 5).1
      = .success ⟨"u1", none, "", none, none, none, none, 5⟩
    ∧ getConversation
        (createConversationRoute ⟨[], []⟩
          (JSVal.obj [("content", JSVal.str "")]) "u1" 5).2 "u1"
      = some ⟨"u1", none, "", none, none, none, none, 5⟩ :=
  ⟨rfl, rfl⟩

/-- C4 (amended).  A creation request whose body object has no `content` key
(or a non-string one, which also fails the same check) is rejected with a
400 validation error and stores nothing; a request whose `content` is any
string — the empty string included — passes validation, is stored, and is
retrievable under its assigned id. -/
theorem create_content_validation (st : StoreState) (body : JSVal)
    (uuid : String) (now : Nat) :
    (∀ fs, body = JSVal.obj fs → objGet fs "content" = none →
      ∃ m, createConversationRoute st body uuid now = (.failure 400 m, st))
    ∧ (∀ validatedData, insertConversationSchemaParse body = .ok validatedData →
        (createConversationRoute st body uuid now).1
          = .success (createConversation st uuid now validatedData).1
        ∧ getConversation (createConversationRoute st body uuid now).2 uuid
          = some (createConversation st uuid now validatedData).1)
    ∧ (∀ s : String, insertConversationSchemaParse
        (JSVal.obj [("content", JSVal.str s)])
        = .ok ⟨none, s, none, none, none, none⟩) := by
  refine ⟨?_, ?_, ?_⟩
  · intro fs hb hnone
    subst hb
    cases hp : insertConversationSchemaParse (JSVal.obj fs) with
    | error m =>
      exact ⟨m, by simp [createConversationRoute, hp]⟩
    | ok d =>
      rw [schemaParse_ok_content hp] at hnone
      exact Option.noConfusion hnone
  · intro d hp
    constructor
    · simp [createConversationRoute, hp]
    · simp [createConversationRoute, hp, createConversation, getConversation,
        mapGet_mapSet]
  · intro s
    rfl

/-- Witness for C4 (amended): a body without `content` is answered 400 with
the store unchanged, and the empty string validates. -/
theorem create_content_validation_witness :
    (∃ m, createConversationRoute ⟨[], []⟩
        (JSVal.obj [("title", JSVal.str "t")]) "u1" 5 = (.failure 400 m, ⟨[], []⟩))
    ∧ insertConversationSchemaParse (JSVal.obj [("content", JSVal.str "")])
        = .ok ⟨none, "", none, none, none, none⟩ := by
  have h := create_content_validation ⟨[], []⟩
      (JSVal.obj [("title", JSVal.str "t")]) "u1" 5
  exact ⟨h.1 [("title", JSVal.str "t")] rfl rfl,
    (create_content_validation ⟨[], []⟩ (JSVal.obj []) "u1" 5).2.2 ""⟩

/-- C5 counterexample.  The claim says `maxTokens` must be one of
{250, 500, 1000, 1500} (others rejected) and that omitting it stores 500.
Neither holds: the derived schema accepts any integer, 999 is stored as
given, and omitting the field stores a conversation with no `maxTokens`
value at all (`MemStorage` never applies the SQL-level default of 500). -/
theorem maxTokens_enum_not_enforced_counterexample :
    (createConversationRoute ⟨[], []⟩
        (JSVal.obj [("content", JSVal.str "hi"), ("maxTokens", JSVal.num 999)])
        "u1" 5).1
      = .success ⟨"u1", none, "hi", none, none, none, some 999, 5⟩
    ∧ (createConversationRoute ⟨[], []⟩
        (JSVal.obj [("content", JSVal.str "hi")]) "u1" 5).1
      = .success ⟨"u1", none, "hi", none, none, none, none, 5⟩ :=
  ⟨rfl, rfl⟩

/-- C5 (amended).  The create endpoint validates `maxTokens` only as an
integer number: every integer — not just the enumerated 250/500/1000/1500 —
is accepted and stored as given, and a request omitting the field is
accepted and stored with no `maxTokens` value (the 500 default lives only in
the SQL column declaration, which the in-memory store never applies). -/
theorem maxTokens_any_integer_accepted (st : StoreState) (uuid : String)
    (now : Nat) (s : String) (n : ℤ) :
    insertConversationSchemaParse
        (JSVal.obj [("content", JSVal.str s), ("maxTokens", JSVal.num (n : ℚ))])
      = .ok ⟨none, s, none, none, none, some n⟩
    ∧ (createConversationRoute st
        (JSVal.obj [("content", JSVal.str s), ("maxTokens", JSVal.num (n : ℚ))])
        uuid now).1
      = .success ⟨uuid, none, s, none, none, none, some n, now⟩
    ∧ getConversation (createConversationRoute st
        (JSVal.obj [("content", JSVal.str s), ("maxTokens", JSVal.num (n : ℚ))])
        uuid now).2 uuid
      = some ⟨uuid, none, s, none, none, none, some n, now⟩
    ∧ (createConversationRoute st
        (JSVal.obj [("content", JSVal.str s)]) uuid now).1
      = .success ⟨uuid, none, s, none, none, none, none, now⟩ := by
  have hparse : insertConversationSchemaParse
      (JSVal.obj [("content", JSVal.str s), ("maxTokens", JSVal.num (n : ℚ))])
      = .ok ⟨none, s, none, none, none, some n⟩ := by
    have hden : ((n : ℚ)).den = 1 := Rat.den_intCast n
    have hnum : ((n : ℚ)).num = n := Rat.num_intCast n
    simp [insertConversationSchemaParse, zodOptionalNullableString,
      zodRequiredString, zodOptionalString, zodOptionalInteger, objGet,
      List.find?, hden, hnum, bind, Except.bind]
  refine ⟨hparse, ?_, ?_, rfl⟩
  · simp [createConversationRoute, hparse, createConversation]
  · simp [createConversationRoute, hparse, createConversation, getConversation,
      mapGet_mapSet]

/-- In a list stably sorted by a numeric key descending, any element with the
strictly larger key sits strictly earlier. -/
theorem sorted_desc_before {α : Type} (f : α → Nat) (l : List α)
    (x y : α) (i j : Nat)
    (hx : (l.mergeSort (fun a b => decide (f b ≤ f a)))[i]? = some x)
    (hy : (l.mergeSort (fun a b => decide (f b ≤ f a)))[j]? = some y)
    (hlt : f x < f y) : j < i := by
  have htrans : ∀ a b c : α, (fun a b => decide (f b ≤ f a)) a b = true →
      (fun a b => decide (f b ≤ f a)) b c = true →
      (fun a b => decide (f b ≤ f a)) a c = true := by
    intro a b c hab hbc
    simp only [decide_eq_true_eq] at hab hbc ⊢
    omega
  have htotal : ∀ a b : α,
      ((fun a b => decide (f b ≤ f a)) a b || (fun a b => decide (f b ≤ f a)) b a)
        = true := by
    intro a b
    simp only [Bool.or_eq_true, decide_eq_true_eq]
    omega
  have hsorted := List.sorted_mergeSort htrans htotal l
  obtain ⟨hilen, hxe⟩ := List.getElem?_eq_some.mp hx
  obtain ⟨hjlen, hye⟩ := List.getElem?_eq_some.mp hy
  by_contra hij
  push_neg at hij
  rcases Nat.eq_or_lt_of_le hij with heq | hltij
  · subst heq
    have hxy : x = y := by rw [← hxe, ← hye]
    subst hxy
    omega
  · have hp := List.pairwise_iff_getElem.mp hsorted i j hilen hjlen hltij
    rw [hxe, hye] at hp
    simp only [decide_eq_true_eq] at hp
    omega

/-- C6.  `getConversations` returns exactly the stored conversations ordered
by `createdAt` descending: whenever two returned conversations have
`createdAt` t1 < t2, every position of the t2 record is before every position
of the t1 record; `getAnalyses` orders analyses the same way. -/
theorem listings_sorted_most_recent_first (st : StoreState) :
    (∀ (c1 c2 : Conversation) (i j : Nat),
      (getConversations st)[i]? = some c1 → (getConversations st)[j]? = some c2 →
      c1.createdAt < c2.createdAt → j < i)
    ∧ (∀ c, c ∈ getConversations st ↔ c ∈ mapValues st.conversations)
    ∧ (∀ (a1 a2 : Analysis) (i j : Nat),
      (getAnalyses st)[i]? = some a1 → (getAnalyses st)[j]? = some a2 →
      a1.createdAt < a2.createdAt → j < i)
    ∧ (∀ a, a ∈ getAnalyses st ↔ a ∈ mapValues st.analyses) := by
  refine ⟨?_, ?_, ?_, ?_⟩
  · intro c1 c2 i j hi hj hlt
    have hi' : ((mapValues st.conversations).mergeSort
        (fun a b => decide ((fun c : Conversation => c.createdAt) b
          ≤ (fun c : Conversation => c.createdAt) a)))[i]? = some c1 := hi
    have hj' : ((mapValues st.conversations).mergeSort
        (fun a b => decide ((fun c : Conversation => c.createdAt) b
          ≤ (fun c : Conversation => c.createdAt) a)))[j]? = some c2 := hj
    exact sorted_desc_before (fun c => c.createdAt) (mapValues st.conversations)
      c1 c2 i j hi' hj' hlt
  · intro c
    exact List.mem_mergeSort
  · intro a1 a2 i j hi hj hlt
    have hi' : ((mapValues st.analyses).mergeSort
        (fun a b => decide ((fun x : Analysis => x.createdAt) b
          ≤ (fun x : Analysis => x.createdAt) a)))[i]? = some a1 := hi
    have hj' : ((mapValues st.analyses).mergeSort
        (fun a b => decide ((fun x : Analysis => x.createdAt) b
          ≤ (fun x : Analysis => x.createdAt) a)))[j]? = some a2 := hj
    exact sorted_desc_before (fun a => a.createdAt) (mapValues st.analyses)
      a1 a2 i j hi' hj' hlt
  · intro a
    exact List.mem_mergeSort

/-- Witness for C6: two conversations created at times 1 and 5; the listing
returns the later one first, and the ordering theorem applies. -/
theorem listings_sorted_most_recent_first_witness :
    (getConversations ⟨[("a", ⟨"a", none, "x", none, none, none, none, 1⟩),
        ("b", ⟨"b", none, "y", none, none, none, none, 5⟩)], []⟩)[0]?
      = some ⟨"b", none, "y", none, none, none, none, 5⟩
    ∧ (getConversations ⟨[("a", ⟨"a", none, "x", none, none, none, none, 1⟩),
        ("b", ⟨"b", none, "y", none, none, none, none, 5⟩)], []⟩)[1]?
      = some ⟨"a", none, "x", none, none, none, none, 1⟩
    ∧ (0 : Nat) < 1 := by
  have hsort : getConversations ⟨[("a", ⟨"a", none, "x", none, none, none, none, 1⟩),
      ("b", ⟨"b", none, "y", none, none, none, none, 5⟩)], []⟩
      = [⟨"b", none, "y", none, none, none, none, 5⟩,
         ⟨"a", none, "x", none, none, none, none, 1⟩] := by
    simp [getConversations, mapValues, List.mergeSort]
  refine ⟨by rw [hsort]; rfl, by rw [hsort]; rfl, ?_⟩
  exact (listings_sorted_most_recent_first
      ⟨[("a", ⟨"a", none, "x", none, none, none, none, 1⟩),
        ("b", ⟨"b", none, "y", none, none, none, none, 5⟩)], []⟩).1
    ⟨"a", none, "x", none, none, none, none, 1⟩
    ⟨"b", none, "y", none, none, none, none, 5⟩ 1 0
    (by rw [hsort]; rfl) (by rw [hsort]; rfl) (by decide)

/-- Hex digits below 16 read back to their value. -/
theorem hexVal_hexDigitChar : ∀ m : Nat, m < 16 → hexVal (hexDigitChar m) = some m := by
  decide

/-- One-step readings of the string-body parser on each shape the serializer
emits (all definitional). -/
theorem parseStrBody_quote (cs : List Char) : parseStrBody ('"' :: cs) = some ([], cs) := by
  rw [parseStrBody.eq_def]
  simp

theorem parseStrBody_esc_quote (cs : List Char) :
    parseStrBody ('\\' :: '"' :: cs)
      = (parseStrBody cs).map (fun p => ('"' :: p.1, p.2)) := by
  rw [parseStrBody.eq_def]
  simp

theorem parseStrBody_esc_backslash (cs : List Char) :
    parseStrBody ('\\' :: '\\' :: cs)
      = (parseStrBody cs).map (fun p => ('\\' :: p.1, p.2)) := by
  rw [parseStrBody.eq_def]
  simp

theorem parseStrBody_esc_b (cs : List Char) :
    parseStrBody ('\\' :: 'b' :: cs)
      = (parseStrBody cs).map (fun p => ('\x08' :: p.1, p.2)) := by
  rw [parseStrBody.eq_def]
  simp

theorem parseStrBody_esc_t (cs : List Char) :
    parseStrBody ('\\' :: 't' :: cs)
      = (parseStrBody cs).map (fun p => ('\x09' :: p.1, p.2)) := by
  rw [parseStrBody.eq_def]
  simp

theorem parseStrBody_esc_n (cs : List Char) :
    parseStrBody ('\\' :: 'n' :: cs)
      = (parseStrBody cs).map (fun p => ('\x0a' :: p.1, p.2)) := by
  rw [parseStrBody.eq_def]
  simp

theorem parseStrBody_esc_f (cs : List Char) :
    parseStrBody ('\\' :: 'f' :: cs)
      = (parseStrBody cs).map (fun p => ('\x0c' :: p.1, p.2)) := by
  rw [parseStrBody.eq_def]
  simp

theorem parseStrBody_esc_r (cs : List Char) :
    parseStrBody ('\\' :: 'r' :: cs)
      = (parseStrBody cs).map (fun p => ('\x0d' :: p.1, p.2)) := by
  rw [parseStrBody.eq_def]
  simp

theorem parseStrBody_esc_u (h1 h2 h3 h4 : Char) (a b c3 d : Nat) (cs : List Char)
    (ha : hexVal h1 = some a) (hb : hexVal h2 = some b) (hc : hexVal h3 = some c3)
    (hd : hexVal h4 = some d)
    (hval : ((a * 16 + b) * 16 + c3) * 16 + d < 0xd800) :
    parseStrBody ('\\' :: 'u' :: h1 :: h2 :: h3 :: h4 :: cs)
      = (parseStrBody cs).map
          (fun p => (Char.ofNat (((a * 16 + b) * 16 + c3) * 16 + d) :: p.1, p.2)) := by
  rw [parseStrBody.eq_def]
  simp [ha, hb, hc, hd, hval]

theorem parseStrBody_plain (c : Char) (cs : List Char) (h1 : ¬ c = '"')
    (h2 : ¬ c = '\\') (h3 : ¬ c.toNat < 0x20) :
    parseStrBody (c :: cs)
      = (parseStrBody cs).map (fun p => (c :: p.1, p.2)) := by
  conv_lhs => rw [parseStrBody.eq_def]
  simp [h1, h2, h3]

/-- The string-body parser inverts the serializer's escaping: reading an
escaped body followed by the closing quote yields back exactly the original
characters and the input after the quote. -/
theorem parseStrBody_encode (l : List Char) (r : List Char) :
    parseStrBody (l.flatMap escapeChar ++ '"' :: r) = some (l, r) := by
  induction l with
  | nil => simp [parseStrBody_quote]
  | cons c t ih =>
    rw [List.flatMap_cons, List.append_assoc]
    by_cases h1 : c = '"'
    · subst h1
      show parseStrBody ('\\' :: '"' :: (t.flatMap escapeChar ++ '"' :: r))
        = some ('"' :: t, r)
      rw [parseStrBody_esc_quote, ih]
      rfl
    · by_cases h2 : c = '\\'
      · subst h2
        show parseStrBody ('\\' :: '\\' :: (t.flatMap escapeChar ++ '"' :: r))
          = some ('\\' :: t, r)
        rw [parseStrBody_esc_backslash, ih]
        rfl
      · by_cases h3 : c = '\x08'
        · subst h3
          show parseStrBody ('\\' :: 'b' :: (t.flatMap escapeChar ++ '"' :: r))
            = some ('\x08' :: t, r)
          rw [parseStrBody_esc_b, ih]
          rfl
        · by_cases h4 : c = '\x09'
          · subst h4
            show parseStrBody ('\\' :: 't' :: (t.flatMap escapeChar ++ '"' :: r))
              = some ('\x09' :: t, r)
            rw [parseStrBody_esc_t, ih]
            rfl
          · by_cases h5 : c = '\x0a'
            · subst h5
              show parseStrBody ('\\' :: 'n' :: (t.flatMap escapeChar ++ '"' :: r))
                = some ('\x0a' :: t, r)
              rw [parseStrBody_esc_n, ih]
              rfl
            · by_cases h6 : c = '\x0c'
              · subst h6
                show parseStrBody ('\\' :: 'f' :: (t.flatMap escapeChar ++ '"' :: r))
                  = some ('\x0c' :: t, r)
                rw [parseStrBody_esc_f, ih]
                rfl
              · by_cases h7 : c = '\x0d'
                · subst h7
                  show parseStrBody ('\\' :: 'r' :: (t.flatMap escapeChar ++ '"' :: r))
                    = some ('\x0d' :: t, r)
                  rw [parseStrBody_esc_r, ih]
                  rfl
                · by_cases h8 : c.toNat < 0x20
                  · have henc : escapeChar c
                        = ['\\', 'u', '0', '0', hexDigitChar (c.toNat / 16),
                           hexDigitChar (c.toNat % 16)] := by
                      simp [escapeChar, h1, h2, h3, h4, h5, h6, h7, h8]
                    rw [henc]
                    show parseStrBody ('\\' :: 'u' :: '0' :: '0'
                        :: hexDigitChar (c.toNat / 16) :: hexDigitChar (c.toNat % 16)
                        :: (t.flatMap escapeChar ++ '"' :: r))
                      = some (c :: t, r)
                    have hd1 : hexVal (hexDigitChar (c.toNat / 16))
                        = some (c.toNat / 16) := hexVal_hexDigitChar _ (by omega)
                    have hd2 : hexVal (hexDigitChar (c.toNat % 16))
                        = some (c.toNat % 16) := hexVal_hexDigitChar _ (by omega)
                    rw [parseStrBody_esc_u '0' '0' _ _ 0 0 (c.toNat / 16) (c.toNat % 16)
                      _ rfl rfl hd1 hd2 (by omega), ih]
                    have hn : ((0 * 16 + 0) * 16 + c.toNat / 16) * 16 + c.toNat % 16
                        = c.toNat := by omega
                    simp only [hn, Char.ofNat_toNat]
                    rfl
                  · have henc : escapeChar c = [c] := by
                      simp [escapeChar, h1, h2, h3, h4, h5, h6, h7, h8]
                    rw [henc]
                    show parseStrBody (c :: (t.flatMap escapeChar ++ '"' :: r))
                      = some (c :: t, r)
                    rw [parseStrBody_plain c _ h1 h2 h8, ih]
                    rfl

theorem stringifyChars_str (s : String) :
    stringifyChars (JSVal.str s) = '"' :: s.data.flatMap escapeChar ++ ['"'] := by
  simp [stringifyChars]

theorem stringifyChars_arr (xs : List JSVal) :
    stringifyChars (JSVal.arr xs) = '[' :: stringifyElems xs ++ [']'] := by
  simp [stringifyChars]

theorem stringifyElems_single (x : JSVal) : stringifyElems [x] = stringifyChars x := by
  simp [stringifyElems]

theorem stringifyElems_cons (x y : JSVal) (ys : List JSVal) :
    stringifyElems (x :: y :: ys) = stringifyChars x ++ ',' :: stringifyElems (y :: ys) := by
  simp [stringifyElems]

theorem skipWs_not_ws (c : Char) (cs : List Char) (h : isJsonWs c = false) :
    skipWs (c :: cs) = c :: cs := by
  simp [skipWs, h]

theorem parseValue_quote (fuel : Nat) (cs : List Char) :
    parseValue (fuel + 1) ('"' :: cs)
      = (parseStrBody cs).map (fun p => (JSVal.str (String.mk p.1), p.2)) := rfl

/-- Parsing a serialized string literal yields the string back. -/
theorem parseValue_str (fuel : Nat) (s : String) (rest : List Char) :
    parseValue (fuel + 1) (stringifyChars (JSVal.str s) ++ rest)
      = some (JSVal.str s, rest) := by
  have harr : stringifyChars (JSVal.str s) ++ rest
      = '"' :: (s.data.flatMap escapeChar ++ '"' :: rest) := by
    rw [stringifyChars_str]
    simp
  rw [harr, parseValue_quote, parseStrBody_encode]
  rfl

theorem parseElems_succ (fuel : Nat) (cs : List Char) :
    parseElems (fuel + 1) cs
      = (parseValue fuel cs).bind (fun p =>
          match skipWs p.2 with
          | ',' :: r => (parseElems fuel (skipWs r)).map (fun q => (p.1 :: q.1, q.2))
          | ']' :: r => some ([p.1], r)
          | _ => none) := rfl

/-- The array-element parser inverts the serializer on a non-empty list of
strings: reading the comma-separated serialized elements and the closing
bracket yields the original strings and the input after the bracket. -/
theorem parseElems_encode (l : List String) :
    ∀ (fuel : Nat) (r : List Char), l.length + 1 ≤ fuel → l ≠ [] →
    parseElems fuel (stringifyElems (l.map JSVal.str) ++ ']' :: r)
      = some (l.map JSVal.str, r) := by
  induction l with
  | nil =>
    intro fuel r _ h
    exact absurd rfl h
  | cons s t ih =>
    intro fuel r hf _
    obtain ⟨f', rfl⟩ : ∃ f', fuel = f' + 1 + 1 := ⟨fuel - 2, by simp at hf; omega⟩
    rw [parseElems_succ]
    cases t with
    | nil =>
      rw [List.map_cons, List.map_nil, stringifyElems_single, parseValue_str]
      simp [skipWs_not_ws, isJsonWs]
    | cons y ys =>
      simp only [List.map_cons] at ih ⊢
      rw [stringifyElems_cons]
      have hsplit : (stringifyChars (JSVal.str s)
            ++ ',' :: stringifyElems (JSVal.str y :: ys.map JSVal.str)) ++ ']' :: r
          = stringifyChars (JSVal.str s)
            ++ (',' :: (stringifyElems (JSVal.str y :: ys.map JSVal.str) ++ ']' :: r)) := by
        simp
      rw [hsplit, parseValue_str]
      have hhead : ∃ w, stringifyElems (JSVal.str y :: ys.map JSVal.str) ++ ']' :: r
          = '"' :: w := by
        cases ys with
        | nil =>
          rw [List.map_nil, stringifyElems_single, stringifyChars_str]
          exact ⟨y.data.flatMap escapeChar ++ '"' :: ']' :: r, by simp⟩
        | cons z zs =>
          rw [List.map_cons, stringifyElems_cons, stringifyChars_str]
          exact ⟨y.data.flatMap escapeChar ++ '"' :: ','
              :: (stringifyElems (JSVal.str z :: zs.map JSVal.str) ++ ']' :: r),
            by simp⟩
      obtain ⟨w, hw⟩ := hhead
      have hskip : skipWs (stringifyElems (JSVal.str y :: ys.map JSVal.str) ++ ']' :: r)
          = stringifyElems (JSVal.str y :: ys.map JSVal.str) ++ ']' :: r := by
        rw [hw]
        exact skipWs_not_ws _ _ rfl
      have hrec := ih (f' + 1) r (by simp at hf ⊢; omega) (by simp)
      simp [skipWs_not_ws, isJsonWs, hskip, hrec]

theorem parseValue_lbracket_quote (fuel : Nat) (w : List Char) :
    parseValue (fuel + 1) ('[' :: '"' :: w)
      = (parseElems fuel ('"' :: w)).map (fun p => (JSVal.arr p.1, p.2)) := rfl

theorem length_le_stringifyElems (l : List String) :
    l.length ≤ (stringifyElems (l.map JSVal.str)).length + 1 := by
  induction l with
  | nil => simp [stringifyElems]
  | cons s t ih =>
    cases t with
    | nil => simp
    | cons y ys =>
      simp only [List.map_cons] at ih ⊢
      rw [stringifyElems_cons]
      simp only [List.length_append, List.length_cons] at ih ⊢
      omega

/-- `JSON.parse` inverts `JSON.stringify` on every array of strings: the
serialized text parses back to exactly the original sequence. -/
theorem jsonParse_stringify_str_arr (l : List String) :
    jsonParse (jsonStringify (JSVal.arr (l.map JSVal.str)))
      = some (JSVal.arr (l.map JSVal.str)) := by
  cases l with
  | nil => rfl
  | cons x t =>
    have hdata : (jsonStringify (JSVal.arr ((x :: t).map JSVal.str))).data
        = '[' :: (stringifyElems ((x :: t).map JSVal.str) ++ [']']) := by
      simp [jsonStringify, stringifyChars_arr]
    have hlen : (jsonStringify (JSVal.arr ((x :: t).map JSVal.str))).length
        = (stringifyElems ((x :: t).map JSVal.str)).length + 2 := by
      simp [jsonStringify, String.length, stringifyChars_arr]
    have hhead : ∃ w, stringifyElems ((x :: t).map JSVal.str) = '"' :: w := by
      cases t with
      | nil =>
        rw [List.map_cons, List.map_nil, stringifyElems_single, stringifyChars_str]
        exact ⟨x.data.flatMap escapeChar ++ ['"'], rfl⟩
      | cons y ys =>
        rw [List.map_cons, List.map_cons, stringifyElems_cons, stringifyChars_str]
        exact ⟨x.data.flatMap escapeChar ++ '"' :: ','
            :: stringifyElems (JSVal.str y :: ys.map JSVal.str), by simp⟩
    obtain ⟨w, hw⟩ := hhead
    unfold jsonParse
    rw [hdata, hlen, hw, List.cons_append]
    rw [skipWs_not_ws '[' _ rfl]
    rw [parseValue_lbracket_quote]
    rw [← List.cons_append, ← hw]
    have hfuel : (x :: t).length + 1
        ≤ (stringifyElems ((x :: t).map JSVal.str)).length + 2 := by
      have := length_le_stringifyElems (x :: t)
      omega
    rw [parseElems_encode (x :: t) _ [] hfuel (by simp)]
    rfl

/-- After inserting an analysis for a conversation that had none, the
first-match lookup finds exactly the inserted record. -/
theorem find_analysis_after_set (m : List (String × Analysis)) (k : String)
    (A : Analysis) (cid : String) (hA : A.conversationId = cid)
    (hno : ∀ p ∈ m, (p.2).conversationId ≠ cid) :
    (mapValues (mapSet m k A)).find? (fun a => a.conversationId == cid) = some A := by
  induction m with
  | nil =>
    simp [mapValues, mapSet, List.find?, hA]
  | cons hd tl ih =>
    obtain ⟨k0, a0⟩ := hd
    by_cases h0 : k0 = k
    · subst h0
      simp only [mapSet, if_pos rfl]
      simp [mapValues, List.find?, hA]
    · simp only [mapSet, if_neg h0]
      have hne : (a0.conversationId == cid) = false := by
        have := hno (k0, a0) (by simp)
        simpa using this
      have htl := ih (fun p hp => hno p (by simp [hp]))
      simp [mapValues, List.find?, hne] at htl ⊢
      exact htl

/-- C8 counterexample.  The claim says `recommendations` is deserialized back
into a sequence of strings when the Analysis is read.  No code on the read
path does that: the read endpoint returns the stored record verbatim, so the
caller receives the serialized JSON text — not the sequence (the text
`["stay calm"]` is not the stored element `stay calm`; only applying
`JSON.parse`, which no repository code does on read, recovers the
sequence). -/
theorem recommendations_read_not_deserialized_counterexample :
    getAnalysisRoute
        ⟨[], [("a1", ⟨"a1", "c1", none, none, none, none,
          some "[\"stay calm\"]", "0", "0", "0", "0", none, 7⟩)]⟩ "c1"
      = .success ⟨"a1", "c1", none, none, none, none,
          some "[\"stay calm\"]", "0", "0", "0", "0", none, 7⟩
    ∧ "[\"stay calm\"]" ≠ "stay calm"
    ∧ jsonParse "[\"stay calm\"]" = some (JSVal.arr [JSVal.str "stay calm"]) :=
  ⟨rfl, by decide, rfl⟩

/-- C8 (amended).  `recommendations` is serialized to JSON text at creation
(`JSON.stringify` before `createAnalysis`); the read endpoint returns the
stored record with the serialized text verbatim — no deserialization happens
on read — and the text faithfully encodes the sequence: `JSON.parse` of the
stored text yields exactly the string sequence that was serialized
(round-trip at the text level). -/
theorem recommendations_serialized_roundtrip (st : StoreState) (id : String)
    (body : JSVal) (chat : ChatOracle) (uuid : String) (now : Nat)
    (conversation : Conversation) (l : List String) (c : String)
    (fs : List (String × JSVal))
    (hconv : getConversation st id = some conversation)
    (hchat : chat (requestOfConversation conversation) 0 = .success (some c))
    (hcne : ¬ c = "")
    (hparse : jsonParse c = some (.obj fs))
    (hrecs : objGet fs "recommendations" = some (JSVal.arr (l.map JSVal.str)))
    (hno : ∀ p ∈ st.analyses, (p.2).conversationId ≠ conversation.id) :
    ∃ analysis : Analysis,
      (analyzeConversationRoute st id body chat uuid now).1
        = .success (analysis, sanitizeFields fs)
      ∧ analysis.recommendations
        = some (jsonStringify (JSVal.arr (l.map JSVal.str)))
      ∧ getAnalysisRoute (analyzeConversationRoute st id body chat uuid now).2
          conversation.id
        = .success analysis
      ∧ jsonParse (jsonStringify (JSVal.arr (l.map JSVal.str)))
        = some (JSVal.arr (l.map JSVal.str)) := by
  have hana : analyzeConversation (requestOfConversation conversation) chat
      = .ok (sanitizeFields fs) := by
    unfold analyzeConversation
    rw [hchat]
    dsimp only
    rw [if_neg hcne, hparse]
  have hrec' : objGet (sanitizeFields fs) "recommendations"
      = some (JSVal.arr (l.map JSVal.str)) := by
    rw [objGet_sanitizeFields, if_neg (by decide)]
    exact hrecs
  refine ⟨{ id := uuid
            conversationId := conversation.id
            emotionalTone := objGet (sanitizeFields fs) "emotionalTone"
            powerDynamics := objGet (sanitizeFields fs) "powerDynamics"
            communicationPatterns := objGet (sanitizeFields fs) "communicationPatterns"
            relationshipInsights := objGet (sanitizeFields fs) "relationshipInsights"
            recommendations := (objGet (sanitizeFields fs) "recommendations").map jsonStringify
            emotionalIntensity :=
              scoreToText ((objGet (sanitizeFields fs) "emotionalIntensity").getD .nan)
            resolutionPotential :=
              scoreToText ((objGet (sanitizeFields fs) "resolutionPotential").getD .nan)
            communicationQuality :=
              scoreToText ((objGet (sanitizeFields fs) "communicationQuality").getD .nan)
            powerBalance :=
              scoreToText ((objGet (sanitizeFields fs) "powerBalance").getD .nan)
            rawAnalysis := objGet (sanitizeFields fs) "rawAnalysis"
            createdAt := now }, ?_, ?_, ?_, jsonParse_stringify_str_arr l⟩
  · simp [analyzeConversationRoute, hconv, hana, createAnalysis]
  · rw [hrec']
    rfl
  · have hst' : (analyzeConversationRoute st id body chat uuid now).2
        = ⟨st.conversations,
           mapSet st.analyses uuid
             { id := uuid
               conversationId := conversation.id
               emotionalTone := objGet (sanitizeFields fs) "emotionalTone"
               powerDynamics := objGet (sanitizeFields fs) "powerDynamics"
               communicationPatterns := objGet (sanitizeFields fs) "communicationPatterns"
               relationshipInsights := objGet (sanitizeFields fs) "relationshipInsights"
               recommendations :=
                 (objGet (sanitizeFields fs) "recommendations").map jsonStringify
               emotionalIntensity :=
                 scoreToText ((objGet (sanitizeFields fs) "emotionalIntensity").getD .nan)
               resolutionPotential :=
                 scoreToText ((objGet (sanitizeFields fs) "resolutionPotential").getD .nan)
               communicationQuality :=
                 scoreToText ((objGet (sanitizeFields fs) "communicationQuality").getD .nan)
               powerBalance :=
                 scoreToText ((objGet (sanitizeFields fs) "powerBalance").getD .nan)
               rawAnalysis := objGet (sanitizeFields fs) "rawAnalysis"
               createdAt := now }⟩ := by
      simp [analyzeConversationRoute, hconv, hana, createAnalysis]
    rw [hst']
    unfold getAnalysisRoute getAnalysis
    dsimp only
    rw [find_analysis_after_set st.analyses uuid _ conversation.id rfl hno]

/-- Witness for C8 (amended): a full concrete run — one stored conversation,
a provider response whose `recommendations` is `["stay calm","listen"]`; the
serialized text round-trips to exactly that sequence. -/
theorem recommendations_serialized_roundtrip_witness :
    jsonParse (jsonStringify (JSVal.arr (["stay calm", "listen"].map JSVal.str)))
      = some (JSVal.arr (["stay calm", "listen"].map JSVal.str)) := by
  obtain ⟨A, h1, h2, h3, h4⟩ := recommendations_serialized_roundtrip
      ⟨[("c1", ⟨"c1", none, "hi", none, none, none, none, 1⟩)], []⟩
      "c1" JSVal.null
      (fun _ _ => .success
        (some "\x7b\"recommendations\":[\"stay calm\",\"listen\"]\x7d"))
      "a1" 7 ⟨"c1", none, "hi", none, none, none, none, 1⟩
      ["stay calm", "listen"]
      "\x7b\"recommendations\":[\"stay calm\",\"listen\"]\x7d"
      [("recommendations", JSVal.arr [JSVal.str "stay calm", JSVal.str "listen"])]
      rfl rfl (by decide) rfl rfl (by simp)
  exact h4
